import Mathlib

/-!
Verification of the cilium distributed ID allocator core
(`pkg/allocator/allocator.go`).

The allocator orchestration logic (`Allocate`, `lockedAllocate`,
`Release`, `GetWithRetry`, `NewAllocator`, `Delete`) is embedded directly
from the Go source. The collaborators that live outside the provided
source tree (`localKeys`, `IDPool`, the main `cache`) are modelled from
the specification of their contracts (spec sections 4.1 - 4.3).

Backend interactions are modelled by an oracle structure whose response
functions take the current attempt index, and every run additionally
produces the list of backend operations that were performed, so that
statements about "no backend I/O" are expressible.
-/

namespace CiliumAllocator

/-- Numeric identity. `idpool.ID` is a Go `uint64`; the allocator never
performs arithmetic that can overflow on it (only comparisons and bitwise
or), so it is represented as `Nat`. -/
abbrev ID := Nat

/-- The sentinel "no ID" value (`idpool.NoID` is 0). -/
def NoID : ID := 0

/-- One backend operation performed during a run, used to express
statements about which backend calls reach the backend. -/
inductive BackendOp where
  | lockOp (k : String)
  | getIfLockedOp (k : String)
  | getOp (k : String)
  | updateKeyIfLockedOp (id : ID) (k : String)
  | acquireReferenceOp (id : ID) (k : String)
  | allocateIDOp (id : ID) (k : String)
  | releaseOp (id : ID) (k : String)
  deriving DecidableEq, Repr

/-- Oracle giving the result of each backend RPC. The first argument of
each response function is the attempt index of the calling allocation
attempt, so the backend may answer differently over time. -/
structure Backend where
  lockRes : Nat → String → Except String Unit
  getIfLockedRes : Nat → String → Except String ID
  getRes : Nat → String → Except String ID
  updateKeyIfLockedRes : Nat → ID → String → Except String Unit
  acquireReferenceRes : Nat → ID → String → Except String Unit
  allocateIDIfLockedRes : Nat → ID → String → Except String Unit

/-- Modelled from the spec: a `LocalKeys` entry
`{key string, id ID, refcount uint, verified bool}` (spec section 3,
"LocalKeys entry"); the key string itself is the association-list key. -/
structure localKey where
  val : ID
  refcnt : Nat
  verified : Bool
  deriving DecidableEq, Repr

/-- Modelled from the spec: the per-node `LocalKeys` table, an encoded-key
indexed table of `localKey` entries (spec section 4.2). -/
abbrev localKeysT := List (String × localKey)

namespace LocalKeys

/-- Lookup of the first entry for an encoded key. -/
def find? : localKeysT → String → Option localKey
  | [], _ => none
  | (k', e) :: rest, k => if k' = k then some e else find? rest k

/-- Rewrite the entry stored under `k` (`none` removes it); helper for the
spec-modelled operations below. -/
def mapKey (f : localKey → Option localKey) : localKeysT → String → localKeysT
  | [], _ => []
  | (k', e) :: rest, k =>
    if k' = k then
      match f e with
      | none => rest
      | some e' => (k', e') :: rest
    else (k', e) :: mapKey f rest k

/-- Increment the reference count of the entry stored under `k`. -/
def incKey (lks : localKeysT) (k : String) : localKeysT :=
  mapKey (fun e => some { e with refcnt := e.refcnt + 1 }) lks k

/-- Decrement the reference count of the entry stored under `k`. -/
def decKey (lks : localKeysT) (k : String) : localKeysT :=
  mapKey (fun e => some { e with refcnt := e.refcnt - 1 }) lks k

/-- Remove the entry stored under `k`. -/
def removeKey (lks : localKeysT) (k : String) : localKeysT :=
  mapKey (fun _ => none) lks k

/-- Modelled from the spec: `use(encodedKey) → ID|NoID`: increment
refcount if entry exists and return its ID; else `NoID` with no side
effect (spec section 4.2). -/
def use (lks : localKeysT) (k : String) : ID × localKeysT :=
  match find? lks k with
  | none => (NoID, lks)
  | some e => (e.val, incKey lks k)

/-- Modelled from the spec: `allocate(encodedKey, key, id)`: if the key is
unknown, create it with refcount 1 and `firstUse = true`; if known with
the same id, increment refcount and return `firstUse = false`; if known
with a different id this is a race and is reported as an error with no
state change (spec section 4.2). Returns `(previousIDOrSameID, firstUse,
new table)`. -/
def allocate (lks : localKeysT) (k : String) (id : ID) :
    Except String (ID × Bool × localKeysT) :=
  match find? lks k with
  | none => .ok (id, true, (k, { val := id, refcnt := 1, verified := false }) :: lks)
  | some e =>
    if e.val = id then .ok (e.val, false, incKey lks k)
    else .error "local key is already allocated with a different ID"

/-- Modelled from the spec: `release(encodedKey)`: decrement refcount; if
it reaches zero, remove the entry and report `lastUse = true`; releasing
an unknown key is an error (spec section 4.2). -/
def release (lks : localKeysT) (k : String) :
    Except String (Bool × ID × localKeysT) :=
  match find? lks k with
  | none => .error "unable to release key which is not owned"
  | some e =>
    if e.refcnt ≤ 1 then .ok (true, e.val, removeKey lks k)
    else .ok (false, e.val, decKey lks k)

/-- Modelled from the spec: `lookupKey(encodedKey) → ID|NoID`, read-only
(spec section 4.2). -/
def lookupKey (lks : localKeysT) (k : String) : ID :=
  match find? lks k with
  | none => NoID
  | some e => e.val

/-- Modelled from the spec: `verify(encodedKey)` marks the entry verified;
its error (entry vanished) is only logged by the allocator, so the quiet
state-transformer is modelled (spec section 4.2). -/
def verify (lks : localKeysT) (k : String) : localKeysT :=
  mapKey (fun e => some { e with verified := true }) lks k

/-- State left by `localKeys.release` when the caller discards its result
(the allocator's unwind paths do this): no change when the key is
unknown. -/
def releaseQuiet (lks : localKeysT) (k : String) : localKeysT :=
  match release lks k with
  | .error _ => lks
  | .ok (_, _, lks') => lks'

end LocalKeys

/-- Modelled from the spec: the `IDPool` with available and leased IDs;
`LeaseAvailableID` reserves an unused ID, `Use` promotes a leased ID to
confirmed in-use, `Release` returns an ID to the available set (spec
section 4.1). -/
structure IDPool where
  available : List ID
  leased : List ID
  deriving DecidableEq, Repr

namespace IDPool

/-- Modelled from the spec: `LeaseAvailableID() → ID|NoID` (spec
section 4.1). -/
def LeaseAvailableID (p : IDPool) : ID × IDPool :=
  match p.available with
  | [] => (NoID, p)
  | x :: rest => (x, { available := rest, leased := x :: p.leased })

/-- Modelled from the spec: `Use(ID)` promotes a leased ID to confirmed
in-use (spec section 4.1). -/
def Use (p : IDPool) (id : ID) : IDPool :=
  { available := p.available, leased := p.leased.erase id }

/-- Modelled from the spec: `Release(ID)` returns an ID to the available
pool, used both for normal release and to unwind a failed allocation
attempt (spec section 4.1). -/
def Release (p : IDPool) (id : ID) : IDPool :=
  { available := id :: p.available, leased := p.leased.erase id }

end IDPool

/-- Modelled from the spec: the main cache's key index; only `get` and
`insert` are exercised by the allocation paths under verification (spec
section 4.3). -/
abbrev cacheT := List (String × ID)

/-- Modelled from the spec: `get(key) → ID|NoID` (spec section 4.3). -/
def cacheGet : cacheT → String → ID
  | [], _ => NoID
  | (k', v) :: rest, k => if k' = k then v else cacheGet rest k

/-- Modelled from the spec: `insert(key, id)` makes a just-allocated
mapping immediately visible locally (spec section 4.3). -/
def cacheInsert : cacheT → String → ID → cacheT
  | [], k, v => [(k, v)]
  | (k', v') :: rest, k, v =>
    if k' = k then (k', v) :: rest else (k', v') :: cacheInsert rest k v

/-- Mutable per-allocator state threaded through the embedded operations:
the local key table, the ID pool and the main cache. -/
structure AllocState where
  localKeys : localKeysT
  idPool : IDPool
  mainCache : cacheT
  deriving DecidableEq, Repr

/-- Configuration fields of the Go `Allocator` struct that the verified
operations read (source `allocator.go`, struct `Allocator`). -/
structure Allocator where
  min : ID
  max : ID
  prefixMask : ID
  operatorIDManagement : Bool
  maxAllocAttempts : Nat
  syncIntervalMs : Nat
  enableMasterKeyProtection : Bool
  disableGC : Bool
  disableAutostart : Bool
  stopGCClosed : Bool
  deriving DecidableEq, Repr

/-- The construction options accepted by `NewAllocator` (source
`allocator.go`, the `With*` option functions). -/
inductive AllocatorOption where
  | WithMin (id : ID)
  | WithMax (id : ID)
  | WithPrefixMask (mask : ID)
  | WithMasterKeyProtection
  | WithOperatorIDManagement
  | WithMaxAllocAttempts (n : Nat)
  | WithSyncInterval (ms : Nat)
  | WithoutGC
  | WithoutAutostart
  deriving DecidableEq, Repr

/-- Application of one option function to the allocator under
construction (source `allocator.go`, the `With*` option functions). -/
def applyOption (a : Allocator) : AllocatorOption → Allocator
  | .WithMin id => { a with min := id }
  | .WithMax id => { a with max := id }
  | .WithPrefixMask m => { a with prefixMask := m }
  | .WithMasterKeyProtection => { a with enableMasterKeyProtection := true }
  | .WithOperatorIDManagement => { a with operatorIDManagement := true }
  | .WithMaxAllocAttempts n => { a with maxAllocAttempts := n }
  | .WithSyncInterval ms => { a with syncIntervalMs := ms }
  | .WithoutGC => { a with disableGC := true }
  | .WithoutAutostart => { a with disableAutostart := true }

/-- The field defaults set by `NewAllocator` before options are applied
(source `allocator.go`, `NewAllocator`): min 1, max `^uint64(0)`,
16 attempts, 5 minute sync interval, fresh (open) `stopGC` channel. -/
def defaultAllocator : Allocator :=
  { min := 1
    max := 2 ^ 64 - 1
    prefixMask := 0
    operatorIDManagement := false
    maxAllocAttempts := 16
    syncIntervalMs := 300000
    enableMasterKeyProtection := false
    disableGC := false
    disableAutostart := false
    stopGCClosed := false }

/-- `NewAllocator` (source `allocator.go`): applies the options to the
defaults, then rejects `min < 1` and `max <= min`. -/
def NewAllocator (opts : List AllocatorOption) : Except String Allocator :=
  let a := opts.foldl applyOption defaultAllocator
  if a.min < 1 then .error "minimum ID must be at least 1"
  else if a.max ≤ a.min then
    .error "maximum ID must be greater than minimum ID"
  else .ok a

/-- Go `close` on a channel: closing an already-closed channel panics;
the panic is modelled as an error result. -/
def closeChan (closed : Bool) : Except String Bool :=
  if closed then .error "close of closed channel" else .ok true

/-- `Allocator.Delete` (source `allocator.go`): closes the `stopGC`
channel and stops the main cache. A second call closes `stopGC` again,
which panics in Go; the panic is the error result. -/
def Delete (a : Allocator) : Except String Allocator :=
  match closeChan a.stopGCClosed with
  | .error e => .error e
  | .ok _ => .ok { a with stopGCClosed := true }

/-- `Allocator.selectAvailableID` (source `allocator.go`): leases an ID
from the pool and ORs the prefix mask into it; returns the masked ID, the
originally selected (unmasked) ID, and the updated pool (the ID-string
return of the Go function carries no extra information and is dropped). -/
def selectAvailableID (a : Allocator) (p : IDPool) : ID × ID × IDPool :=
  let lr := p.LeaseAvailableID
  if lr.1 ≠ NoID then (lr.1 ||| a.prefixMask, lr.1, lr.2) else (0, 0, lr.2)

/-- `Allocator.GetIfLocked` (source `allocator.go`): consult the main
cache first; only on a cache miss issue `backend.GetIfLocked`. -/
def GetIfLocked (b : Backend) (t : Nat) (c : cacheT) (k : String) :
    Except String ID × List BackendOp :=
  let cid := cacheGet c k
  if cid ≠ NoID then (.ok cid, [])
  else (b.getIfLockedRes t k, [.getIfLockedOp k])

/-- The `value != 0` tail of `lockedAllocate` (source `allocator.go`):
acquire the secondary reference; on failure release the local key and
fail; on success mark the key verified and return `(value, isNew = false,
firstUse)`. -/
def afterMaster (b : Backend) (t : Nat) (s : AllocState) (k : String)
    (value : ID) (firstUse : Bool) (ops : List BackendOp) :
    Except String (ID × Bool × Bool) × AllocState × List BackendOp :=
  let ops' := ops ++ [.acquireReferenceOp value k]
  match b.acquireReferenceRes t value k with
  | .error e =>
    (.error ("unable to create secondary key: " ++ e),
     { s with localKeys := LocalKeys.releaseQuiet s.localKeys k }, ops')
  | .ok _ =>
    (.ok (value, false, firstUse),
     { s with localKeys := LocalKeys.verify s.localKeys k }, ops')

/-- The new-allocation tail of `lockedAllocate` (source `allocator.go`):
lease a fresh ID, reserve it locally, re-check the cluster for a race,
conditionally create the master key, mark the leased ID in-use, acquire
the secondary reference; on each failure after leasing, release the local
reservation and return the leased ID to the pool. -/
def newAllocPath (b : Backend) (a : Allocator) (t : Nat) (s : AllocState)
    (k : String) (ops : List BackendOp) :
    Except String (ID × Bool × Bool) × AllocState × List BackendOp :=
  let sel := selectAvailableID a s.idPool
  let id := sel.1
  let unmaskedID := sel.2.1
  let pool1 := sel.2.2
  if id = 0 then
    (.error "no more available IDs in configured space",
     { s with idPool := pool1 }, ops)
  else
    match LocalKeys.allocate s.localKeys k id with
    | .error _ =>
      (.error "unable to reserve local key",
       { s with idPool := pool1.Release unmaskedID }, ops)
    | .ok (oldID, firstUse, lks1) =>
      if id ≠ oldID then
        (.error ("another writer has allocated key " ++ k),
         { s with localKeys := LocalKeys.releaseQuiet lks1 k,
                  idPool := pool1.Release unmaskedID }, ops)
      else
        let ops2 := ops ++ [.getOp k]
        match b.getRes t k with
        | .error e =>
          (.error e,
           { s with localKeys := LocalKeys.releaseQuiet lks1 k,
                    idPool := pool1.Release unmaskedID }, ops2)
        | .ok value =>
          if value ≠ 0 then
            (.error ("found master key after proceeding with new allocation for " ++ k),
             { s with localKeys := LocalKeys.releaseQuiet lks1 k,
                      idPool := pool1.Release unmaskedID }, ops2)
          else
            let ops3 := ops2 ++ [.allocateIDOp id k]
            match b.allocateIDIfLockedRes t id k with
            | .error _ =>
              (.error "unable to allocate ID",
               { s with localKeys := LocalKeys.releaseQuiet lks1 k,
                        idPool := pool1.Release unmaskedID }, ops3)
            | .ok _ =>
              let pool2 := pool1.Use unmaskedID
              let ops4 := ops3 ++ [.acquireReferenceOp id k]
              match b.acquireReferenceRes t id k with
              | .error _ =>
                (.error "secondary key creation failed",
                 { s with localKeys := LocalKeys.releaseQuiet lks1 k,
                          idPool := pool2.Release unmaskedID }, ops4)
              | .ok _ =>
                (.ok (id, true, firstUse),
                 { s with localKeys := LocalKeys.verify lks1 k,
                          idPool := pool2 }, ops4)

/-- `Allocator.lockedAllocate` (source `allocator.go`): take the per-key
backend lock, read the backend-authoritative ID, re-create a missing
master key that is still locally referenced, otherwise reserve the found
ID locally, and if nothing was found run the new-allocation path. -/
def lockedAllocate (b : Backend) (a : Allocator) (t : Nat) (s : AllocState)
    (k : String) :
    Except String (ID × Bool × Bool) × AllocState × List BackendOp :=
  match b.lockRes t k with
  | .error e => (.error e, s, [.lockOp k])
  | .ok _ =>
    let gr := GetIfLocked b t s.mainCache k
    let gv := gr.1
    let ops1 := .lockOp k :: gr.2
    match gv with
    | .error e => (.error e, s, ops1)
    | .ok value0 =>
      if value0 = NoID then
        let value := LocalKeys.lookupKey s.localKeys k
        if value ≠ NoID then
          let ops2 := ops1 ++ [.updateKeyIfLockedOp value k]
          match b.updateKeyIfLockedRes t value k with
          | .error _ => (.error "unable to re-create missing master key", s, ops2)
          | .ok _ => afterMaster b t s k value false ops2
        else
          newAllocPath b a t s k ops1
      else
        match LocalKeys.allocate s.localKeys k value0 with
        | .error _ => (.error "unable to reserve local key", s, ops1)
        | .ok (_, firstUse, lks1) =>
          afterMaster b t { s with localKeys := lks1 } k value0 firstUse ops1

/-- Outcome of `Allocator.Allocate`: `ok` carries the nil-error return
triple `(id, isNew, firstUse)`, `cancelled` the context-cancellation
errors, `failed` all other errors; `blocked` models the select suspending
forever because neither the initial list nor the cancellation fired. -/
inductive AllocOutcome where
  | blocked
  | cancelled (msg : String)
  | failed (msg : String)
  | ok (id : ID) (isNew : Bool) (firstUse : Bool)
  deriving DecidableEq, Repr

/-- The Go select over `initialListDone` and `ctx.Done()`: `some true`
means the cancellation branch was taken, `some false` the list branch,
`none` that the select blocks. When both channels are ready Go picks a
ready case at random; that choice is the `pickCancel` parameter. -/
def selectInitOrDone (initialListDone ctxCancelled pickCancel : Bool) :
    Option Bool :=
  if initialListDone && ctxCancelled then some pickCancel
  else if ctxCancelled then some true
  else if initialListDone then some false
  else none

/-- The retry loop of `Allocator.Allocate` (source `allocator.go`): on
each attempt first try the local fast path (`localKeys.use`, mirrored
into the cache), otherwise `lockedAllocate`; on error return the
cancellation error if the context is done, else back off and retry;
falling out of the loop returns the last error (`nil` if zero attempts
were configured, which surfaces as an `ok` with the zero ID). -/
def allocateLoop (b : Backend) (a : Allocator) (k : String)
    (ctxCancelled : Bool) :
    Nat → Nat → AllocState → Option String →
    AllocOutcome × AllocState × List BackendOp
  | 0, _, s, lastErr =>
    (match lastErr with
     | none => .ok 0 false false
     | some e => .failed e, s, [])
  | fuel + 1, attempt, s, _ =>
    let ur := LocalKeys.use s.localKeys k
    let val := ur.1
    if val ≠ NoID then
      (.ok val false false,
       { s with localKeys := ur.2, mainCache := cacheInsert s.mainCache k val },
       [])
    else
      match lockedAllocate b a attempt s k with
      | (.ok (value, isNew, firstUse), s', ops) =>
        (.ok value isNew firstUse,
         { s' with mainCache := cacheInsert s'.mainCache k value }, ops)
      | (.error e, s', ops) =>
        if ctxCancelled then (.cancelled "key allocation cancelled", s', ops)
        else
          let rec' := allocateLoop b a k ctxCancelled fuel (attempt + 1) s' (some e)
          (rec'.1, rec'.2.1, ops ++ rec'.2.2)

/-- Outcome of `Allocator.GetWithRetry`. -/
inductive GetRetryOutcome where
  | ok (id : ID)
  | cancelled (msg : String)
  | failed (msg : String)
  deriving DecidableEq, Repr

/-- The `getID` closure of `Allocator.GetWithRetry` (source
`allocator.go`): run `Allocator.Get` (cache first, then `backend.Get`)
and treat a zero result as the "security identity not found for key"
error. -/
def getID (b : Backend) (s : AllocState) (k : String) (attempt : Nat) :
    Except String ID × List BackendOp :=
  let cid := cacheGet s.mainCache k
  if cid ≠ NoID then ((Except.ok cid : Except String ID), ([] : List BackendOp))
  else
    match b.getRes attempt k with
    | .error e => (.error e, [.getOp k])
    | .ok id =>
      (if id = NoID then
         .error ("security identity not found for key " ++ k)
       else .ok id, [.getOp k])

/-- The retry loop of `Allocator.GetWithRetry` (source `allocator.go`):
each attempt runs `getID`; on error it returns the cancellation error if
the context is done, else backs off and retries; falling out of the loop
returns `NoID` with the last error. -/
def getWithRetryLoop (b : Backend) (s : AllocState) (k : String)
    (ctxCancelled : Bool) :
    Nat → Nat → Option String → GetRetryOutcome × List BackendOp
  | 0, _, lastErr =>
    (match lastErr with
     | none => .ok NoID
     | some e => .failed e, [])
  | fuel + 1, attempt, _ =>
    let gr := getID b s k attempt
    match gr.1 with
    | .ok id => (.ok id, gr.2)
    | .error e =>
      if ctxCancelled then (.cancelled "key allocation cancelled", gr.2)
      else
        let r := getWithRetryLoop b s k ctxCancelled fuel (attempt + 1) (some e)
        (r.1, gr.2 ++ r.2)

/-- `Allocator.GetWithRetry` (source `allocator.go`). -/
def GetWithRetry (b : Backend) (a : Allocator) (s : AllocState) (k : String)
    (ctxCancelled : Bool) : GetRetryOutcome × List BackendOp :=
  getWithRetryLoop b s k ctxCancelled a.maxAllocAttempts 0 none

/-- `Allocator.Allocate` (source `allocator.go`): wait for the initial
list or cancellation; with `operatorIDManagement` delegate to
`GetWithRetry` with `isNew = firstUse = false`; otherwise run the
attempt loop. -/
def Allocate (b : Backend) (a : Allocator) (s : AllocState) (k : String)
    (initialListDone ctxCancelled pickCancel : Bool) :
    AllocOutcome × AllocState × List BackendOp :=
  match selectInitOrDone initialListDone ctxCancelled pickCancel with
  | none => (.blocked, s, [])
  | some true =>
    (.cancelled "allocation was cancelled while waiting for initial key list to be received",
     s, [])
  | some false =>
    if a.operatorIDManagement then
      match GetWithRetry b a s k ctxCancelled with
      | (.ok id, ops) => (.ok id false false, s, ops)
      | (.cancelled m, ops) => (.cancelled m, s, ops)
      | (.failed m, ops) => (.failed m, s, ops)
    else
      allocateLoop b a k ctxCancelled a.maxAllocAttempts 0 s none

/-- Outcome of `Allocator.Release`. -/
inductive ReleaseOutcome where
  | blocked
  | cancelled (msg : String)
  | failed (msg : String)
  | ok (lastUse : Bool)
  deriving DecidableEq, Repr

/-- `Allocator.Release` (source `allocator.go`): skipped entirely under
`operatorIDManagement`; otherwise wait for the initial list or
cancellation, release the local reference, and only on the last local use
call `backend.Release` (whose error is discarded). -/
def Release (a : Allocator) (s : AllocState) (k : String)
    (initialListDone ctxCancelled pickCancel : Bool) :
    ReleaseOutcome × AllocState × List BackendOp :=
  if a.operatorIDManagement then (.ok false, s, [])
  else
    match selectInitOrDone initialListDone ctxCancelled pickCancel with
    | none => (.blocked, s, [])
    | some true =>
      (.cancelled "release was cancelled while waiting for initial key list to be received",
       s, [])
    | some false =>
      match LocalKeys.release s.localKeys k with
      | .error e => (.failed e, s, [])
      | .ok (lastUse, id, lks') =>
        if lastUse then
          (.ok true, { s with localKeys := lks' }, [.releaseOp id k])
        else (.ok false, { s with localKeys := lks' }, [])

/-- Iterated `Release`: the outcomes, final state and concatenated
backend-operation trace of `n` successive release calls for `k`. -/
def releaseN (a : Allocator) (k : String)
    (initialListDone ctxCancelled pickCancel : Bool) :
    Nat → AllocState → List ReleaseOutcome × AllocState × List BackendOp
  | 0, s => ([], s, [])
  | n + 1, s =>
    let r := Release a s k initialListDone ctxCancelled pickCancel
    let rest := releaseN a k initialListDone ctxCancelled pickCancel n r.2.1
    (r.1 :: rest.1, rest.2.1, r.2.2 ++ rest.2.2)

/-! Concrete fixtures used by witnesses and counterexamples. -/

/-- A backend whose every call succeeds and that holds no mapping for any
key (`Get` style reads return `NoID`). -/
def okBackend : Backend :=
  { lockRes := fun _ _ => .ok ()
    getIfLockedRes := fun _ _ => .ok NoID
    getRes := fun _ _ => .ok NoID
    updateKeyIfLockedRes := fun _ _ _ => .ok ()
    acquireReferenceRes := fun _ _ _ => .ok ()
    allocateIDIfLockedRes := fun _ _ _ => .ok () }

/-- A backend like `okBackend` whose `Get` reads find ID 7. -/
def foundBackend : Backend :=
  { okBackend with getRes := fun _ _ => .ok 7 }

/-- A backend like `okBackend` whose `AcquireReference` always fails. -/
def acqFailBackend : Backend :=
  { okBackend with acquireReferenceRes := fun _ _ _ => .error "reference lost" }

/-- Fresh allocator-local state with no local keys, an empty pool and an
empty cache. -/
def emptyState : AllocState :=
  { localKeys := [], idPool := { available := [], leased := [] }, mainCache := [] }

/-- State with IDs 1..3 available and nothing allocated. -/
def poolState : AllocState :=
  { localKeys := [], idPool := { available := [1, 2, 3], leased := [] }, mainCache := [] }

/-- State in which key "k" is locally held once with ID 5. -/
def heldState : AllocState :=
  { localKeys := [("k", { val := 5, refcnt := 1, verified := true })]
    idPool := { available := [], leased := [] }
    mainCache := [] }

/-! Theorems. -/

/-- `applyOption` never touches the `stopGC` channel. -/
theorem applyOption_stopGCClosed (a : Allocator) (o : AllocatorOption) :
    (applyOption a o).stopGCClosed = a.stopGCClosed := by
  cases o <;> rfl

/-- No option combination can close the `stopGC` channel at
construction. -/
theorem foldl_stopGCClosed :
    ∀ (opts : List AllocatorOption) (a : Allocator),
      (opts.foldl applyOption a).stopGCClosed = a.stopGCClosed
  | [], _ => rfl
  | o :: rest, a => by
    rw [List.foldl_cons, foldl_stopGCClosed rest, applyOption_stopGCClosed]

/-- C8: `NewAllocator` returns an error, for every option combination,
exactly when the configured minimum is below 1 or the configured maximum
is not above the minimum; every successfully constructed allocator
satisfies `1 ≤ min` and `min < max` (and its fields are immutable
thereafter). -/
theorem C8_construction_bounds (opts : List AllocatorOption) :
    (((opts.foldl applyOption defaultAllocator).min < 1 ∨
       (opts.foldl applyOption defaultAllocator).max ≤
         (opts.foldl applyOption defaultAllocator).min) ↔
      ∃ e, NewAllocator opts = .error e) ∧
    (∀ a, NewAllocator opts = .ok a → 1 ≤ a.min ∧ a.min < a.max) := by
  by_cases h1 : (opts.foldl applyOption defaultAllocator).min < 1
  · have hres : NewAllocator opts = .error "minimum ID must be at least 1" := by
      simp only [NewAllocator]
      rw [if_pos h1]
    refine ⟨⟨fun _ => ⟨_, hres⟩, fun _ => Or.inl h1⟩, ?_⟩
    intro a ha
    rw [hres] at ha
    exact absurd ha (by simp)
  · by_cases h2 : (opts.foldl applyOption defaultAllocator).max ≤
        (opts.foldl applyOption defaultAllocator).min
    · have hres : NewAllocator opts =
          .error "maximum ID must be greater than minimum ID" := by
        simp only [NewAllocator]
        rw [if_neg h1, if_pos h2]
      refine ⟨⟨fun _ => ⟨_, hres⟩, fun _ => Or.inr h2⟩, ?_⟩
      intro a ha
      rw [hres] at ha
      exact absurd ha (by simp)
    · have hres : NewAllocator opts = .ok (opts.foldl applyOption defaultAllocator) := by
        simp only [NewAllocator]
        rw [if_neg h1, if_neg h2]
      refine ⟨⟨fun h => absurd h (not_or.mpr ⟨h1, h2⟩), fun ⟨e, he⟩ => ?_⟩, ?_⟩
      · rw [hres] at he
        exact absurd he (by simp)
      · intro a ha
        rw [hres] at ha
        simp only [Except.ok.injEq] at ha
        subst ha
        exact ⟨Nat.not_lt.mp h1, Nat.not_le.mp h2⟩

/-- C8 witness: constructing with `WithMax 5` succeeds and the instance
satisfies the bounds. -/
theorem C8_construction_bounds_witness :
    1 ≤ ({ defaultAllocator with max := 5 } : Allocator).min ∧
      ({ defaultAllocator with max := 5 } : Allocator).min <
        ({ defaultAllocator with max := 5 } : Allocator).max :=
  (C8_construction_bounds [.WithMax 5]).2 _ rfl

/-- C9: with `operatorIDManagement` enabled, `Release` is skipped
entirely: it returns `lastUse = false` with a nil error, without waiting
for the initial sync, without touching the local key table, and without
any backend call. -/
theorem C9_release_skipped (a : Allocator) (s : AllocState) (k : String)
    (initialListDone ctxCancelled pickCancel : Bool)
    (hop : a.operatorIDManagement = true) :
    Release a s k initialListDone ctxCancelled pickCancel = (.ok false, s, []) := by
  unfold Release
  rw [hop]
  simp

/-- C9 witness: a concrete operator-managed release is skipped even
before the initial sync and with a canceled context. -/
theorem C9_release_skipped_witness :
    Release { defaultAllocator with operatorIDManagement := true } heldState "k"
        false true false = (.ok false, heldState, []) :=
  C9_release_skipped _ _ _ _ _ _ rfl

/-- C10: `Delete` is not idempotent: on any allocator built by
`NewAllocator` the first `Delete` succeeds (closing `stopGC`), and a
second `Delete` closes the already-closed channel, which panics. -/
theorem C10_delete_not_idempotent (opts : List AllocatorOption) (a : Allocator)
    (h : NewAllocator opts = .ok a) :
    Delete a = .ok { a with stopGCClosed := true } ∧
      Delete { a with stopGCClosed := true } = .error "close of closed channel" := by
  have hopen : a.stopGCClosed = false := by
    simp only [NewAllocator] at h
    split at h
    · exact absurd h (by simp)
    · split at h
      · exact absurd h (by simp)
      · simp only [Except.ok.injEq] at h
        subst h
        exact foldl_stopGCClosed opts defaultAllocator
  constructor
  · unfold Delete closeChan
    rw [hopen]
    rfl
  · rfl

/-- C10 witness: the default-constructed allocator panics on the second
`Delete`. -/
theorem C10_delete_not_idempotent_witness :
    Delete defaultAllocator = .ok { defaultAllocator with stopGCClosed := true } ∧
      Delete { defaultAllocator with stopGCClosed := true } =
        .error "close of closed channel" :=
  C10_delete_not_idempotent [] defaultAllocator rfl

/-- C1 counterexample: the claim that every nil-error return of
`Allocate` carries a nonzero ID is false as stated: an allocator
configured with `WithMaxAllocAttempts 0` (accepted by `NewAllocator`)
runs the attempt loop zero times and falls through to `return 0, false,
false, err` with `err` still nil, returning the sentinel ID 0 with a nil
error. -/
theorem C1_counterexample :
    Allocate okBackend { defaultAllocator with maxAllocAttempts := 0 }
        emptyState "k" true false false =
      (.ok 0 false false, emptyState, []) := by
  decide

/-- C4 counterexample: with the ID pool exhausted and
`maxAllocAttempts = 2`, the Allocate call does retry further within the
same call: the backend `Lock`/`GetIfLocked` pair is performed twice (one
per attempt of the backoff loop) before the exhaustion error is returned,
contradicting that the error is surfaced immediately without further
retries within the call. -/
theorem C4_counterexample :
    Allocate okBackend { defaultAllocator with maxAllocAttempts := 2 }
        emptyState "k" true false false =
      (.failed "no more available IDs in configured space", emptyState,
       [.lockOp "k", .getIfLockedOp "k", .lockOp "k", .getIfLockedOp "k"]) := by
  decide

/-- C5 counterexample: once the initial list is done, the Go select may
take the list branch even though the context is already canceled; a
locally held key then resolves via the fast path and `Allocate` returns a
nil error (not a cancellation error) despite the canceled context. -/
theorem C5_counterexample :
    Allocate okBackend defaultAllocator heldState "k" true true false =
      (.ok 5 false false,
       { heldState with
           localKeys := [("k", { val := 5, refcnt := 2, verified := true })]
           mainCache := [("k", 5)] }, []) := by
  decide

/-- C5 (amended): `Allocate` invoked with an already-canceled context
returns the cancellation error without any backend I/O and without state
change whenever the initial key list has not yet been received (or, list
received, whenever the select observes the cancellation branch). -/
theorem C5_cancelled_no_io (b : Backend) (a : Allocator) (s : AllocState)
    (k : String) (initialListDone pickCancel : Bool)
    (h : initialListDone = false ∨ pickCancel = true) :
    Allocate b a s k initialListDone true pickCancel =
      (.cancelled "allocation was cancelled while waiting for initial key list to be received",
       s, []) := by
  unfold Allocate selectInitOrDone
  rcases h with h | h <;> subst h
  · simp
  · cases initialListDone <;> simp

/-- C5 witness: concrete cancellation before the initial list with a
backend and state that could otherwise serve the request. -/
theorem C5_cancelled_no_io_witness :
    Allocate okBackend defaultAllocator heldState "k" false true false =
      (.cancelled "allocation was cancelled while waiting for initial key list to be received",
       heldState, []) :=
  C5_cancelled_no_io okBackend defaultAllocator heldState "k" false false (Or.inl rfl)

/-- C2: when a key already has a local entry (nonzero refcount, nonzero
ID), `Allocate` resolves on the fast path of the first attempt: the
refcount is incremented, the mapping is mirrored into the main cache via
`insert`, the existing ID is returned with `isNew = firstUse = false` and
a nil error, and no backend operation at all is performed. -/
theorem C2_local_fast_path (b : Backend) (a : Allocator) (s : AllocState)
    (k : String) (pickCancel : Bool) (e : localKey)
    (hop : a.operatorIDManagement = false)
    (hA : 1 ≤ a.maxAllocAttempts)
    (hf : LocalKeys.find? s.localKeys k = some e)
    (hv : e.val ≠ NoID) :
    Allocate b a s k true false pickCancel =
      (.ok e.val false false,
       { s with localKeys := LocalKeys.incKey s.localKeys k,
                mainCache := cacheInsert s.mainCache k e.val }, []) := by
  obtain ⟨m, hm⟩ : ∃ m, a.maxAllocAttempts = m + 1 :=
    ⟨a.maxAllocAttempts - 1, by omega⟩
  unfold Allocate selectInitOrDone
  rw [hop, hm]
  unfold allocateLoop
  simp [LocalKeys.use, hf, hv]

/-- C2 witness: a second allocation of the held key "k" returns ID 5 on
the fast path with no backend operations. -/
theorem C2_local_fast_path_witness :
    Allocate okBackend defaultAllocator heldState "k" true false false =
      (.ok 5 false false,
       { heldState with
           localKeys := LocalKeys.incKey heldState.localKeys "k"
           mainCache := cacheInsert heldState.mainCache "k" 5 }, []) :=
  C2_local_fast_path okBackend defaultAllocator heldState "k" false
    { val := 5, refcnt := 1, verified := true } rfl (by decide) rfl (by decide)

/-- Rewriting the entry under `k` updates what `find?` sees there. -/
theorem find?_mapKey_some {f : localKey → Option localKey} :
    ∀ {lks : localKeysT} {k : String} {e e' : localKey},
      LocalKeys.find? lks k = some e → f e = some e' →
      LocalKeys.find? (LocalKeys.mapKey f lks k) k = some e'
  | [], _, _, _, hf, _ => by simp [LocalKeys.find?] at hf
  | (k', e0) :: rest, k, e, e', hf, he => by
    by_cases hk : k' = k
    · simp only [LocalKeys.find?, if_pos hk] at hf
      cases hf
      simp [LocalKeys.mapKey, hk, he, LocalKeys.find?]
    · simp only [LocalKeys.find?, if_neg hk] at hf
      simp only [LocalKeys.mapKey, if_neg hk, LocalKeys.find?]
      exact find?_mapKey_some hf he

/-- Removing the entry under `k` after decrementing it removes the same
entry. -/
theorem removeKey_decKey :
    ∀ (lks : localKeysT) (k : String),
      LocalKeys.removeKey (LocalKeys.decKey lks k) k = LocalKeys.removeKey lks k
  | [], _ => rfl
  | (k', e0) :: rest, k => by
    by_cases hk : k' = k
    · simp [LocalKeys.decKey, LocalKeys.removeKey, LocalKeys.mapKey, hk]
    · simp only [LocalKeys.decKey, LocalKeys.removeKey, LocalKeys.mapKey, if_neg hk,
        List.cons.injEq, true_and]
      have := removeKey_decKey rest k
      simp only [LocalKeys.decKey, LocalKeys.removeKey] at this
      exact this

/-- In normal (non-operator) mode after the initial list, a release whose
local refcount drop is the last use removes the local entry and performs
the single backend release. -/
theorem Release_normal_last (a : Allocator) (s : AllocState) (k : String)
    (pickCancel : Bool) (id : ID) (lks' : localKeysT)
    (hop : a.operatorIDManagement = false)
    (hrel : LocalKeys.release s.localKeys k = .ok (true, id, lks')) :
    Release a s k true false pickCancel =
      (.ok true, { s with localKeys := lks' }, [.releaseOp id k]) := by
  unfold Release selectInitOrDone
  rw [hop, hrel]
  simp

/-- In normal (non-operator) mode after the initial list, a release that
does not drop the local refcount to zero performs no backend call. -/
theorem Release_normal_notLast (a : Allocator) (s : AllocState) (k : String)
    (pickCancel : Bool) (id : ID) (lks' : localKeysT)
    (hop : a.operatorIDManagement = false)
    (hrel : LocalKeys.release s.localKeys k = .ok (false, id, lks')) :
    Release a s k true false pickCancel =
      (.ok false, { s with localKeys := lks' }, []) := by
  unfold Release selectInitOrDone
  rw [hop, hrel]
  simp

/-- C3: for a key held locally with reference count `M ≥ 1`, running
`Release` `M` times reports `lastUse = false` on the first `M - 1` calls
and `lastUse = true` exactly on the `M`-th; `backend.Release` is invoked
exactly once over the whole sequence (on that last call), and the local
entry is gone afterwards. -/
theorem C3_release_counting (a : Allocator) (k : String) (pickCancel : Bool) :
    ∀ (M : Nat) (s : AllocState) (e : localKey),
      a.operatorIDManagement = false →
      LocalKeys.find? s.localKeys k = some e →
      e.refcnt = M → 1 ≤ M →
      releaseN a k true false pickCancel M s =
        (List.replicate (M - 1) (.ok false) ++ [.ok true],
         { s with localKeys := LocalKeys.removeKey s.localKeys k },
         [.releaseOp e.val k])
  | 0, _, _, _, _, _, h1 => absurd h1 (by omega)
  | 1, s, e, hop, hf, hM, _ => by
    have hrel : LocalKeys.release s.localKeys k =
        .ok (true, e.val, LocalKeys.removeKey s.localKeys k) := by
      simp [LocalKeys.release, hf, hM]
    unfold releaseN
    rw [Release_normal_last a s k pickCancel e.val _ hop hrel]
    simp [releaseN]
  | M + 2, s, e, hop, hf, hM, _ => by
    have hrel : LocalKeys.release s.localKeys k =
        .ok (false, e.val, LocalKeys.decKey s.localKeys k) := by
      simp [LocalKeys.release, hf, hM]
    have hfind' : LocalKeys.find? (LocalKeys.decKey s.localKeys k) k =
        some { e with refcnt := e.refcnt - 1 } :=
      find?_mapKey_some hf rfl
    have ih := C3_release_counting a k pickCancel (M + 1)
      { s with localKeys := LocalKeys.decKey s.localKeys k }
      { e with refcnt := e.refcnt - 1 } hop hfind' (by simp [hM]) (by omega)
    unfold releaseN
    rw [Release_normal_notLast a s k pickCancel e.val _ hop hrel]
    simp only [ih]
    simp [List.replicate_succ, removeKey_decKey]

/-- C3 witness: key "k" held three times releases as
`false, false, true` with a single backend release of ID 5. -/
theorem C3_release_counting_witness :
    releaseN defaultAllocator "k" true false false 3
        { localKeys := [("k", { val := 5, refcnt := 3, verified := true })]
          idPool := { available := [], leased := [] }
          mainCache := [] } =
      ([.ok false, .ok false, .ok true],
       { localKeys := [], idPool := { available := [], leased := [] },
         mainCache := [] },
       [.releaseOp 5 "k"]) := by
  have h := C3_release_counting defaultAllocator "k" false 3
    { localKeys := [("k", { val := 5, refcnt := 3, verified := true })]
      idPool := { available := [], leased := [] }
      mainCache := [] }
    { val := 5, refcnt := 3, verified := true } rfl rfl rfl (by omega)
  simpa [LocalKeys.removeKey, LocalKeys.mapKey] using h

/-- A bitwise or with a nonzero left operand is nonzero. -/
theorem lor_ne_zero {x : Nat} (m : Nat) (hx : x ≠ 0) : x ||| m ≠ 0 := by
  intro h
  obtain ⟨i, hi⟩ := Nat.ne_zero_implies_bit_true hx
  have h1 := congrArg (fun n => Nat.testBit n i) h
  simp [hi] at h1

/-- `afterMaster` only succeeds with the master-key value it was handed. -/
theorem afterMaster_fst_ok {b : Backend} {t : Nat} {s : AllocState}
    {k : String} {value : ID} {fu : Bool} {ops : List BackendOp}
    {v : ID} {n f : Bool}
    (h : (afterMaster b t s k value fu ops).1 = .ok (v, n, f)) :
    v = value := by
  unfold afterMaster at h
  cases hA : b.acquireReferenceRes t value k <;> rw [hA] at h <;> simp_all

/-- The new-allocation path only succeeds with the nonzero leased ID. -/
theorem newAllocPath_fst_ok {b : Backend} {a : Allocator} {t : Nat}
    {s : AllocState} {k : String} {ops : List BackendOp} {v : ID} {n f : Bool}
    (h : (newAllocPath b a t s k ops).1 = .ok (v, n, f)) :
    v ≠ 0 := by
  simp only [newAllocPath] at h
  split at h
  · exact absurd h (by simp)
  · rename_i h0
    split at h
    · exact absurd h (by simp)
    · split at h
      · exact absurd h (by simp)
      · split at h
        · exact absurd h (by simp)
        · split at h
          · exact absurd h (by simp)
          · split at h
            · exact absurd h (by simp)
            · split at h
              · exact absurd h (by simp)
              · simp only [Prod.mk.injEq, Except.ok.injEq] at h
                obtain ⟨hv, -, -⟩ := h
                exact fun hz => h0 (hv ▸ hz)

/-- Every nil-error return of `lockedAllocate` carries a nonzero ID. -/
theorem lockedAllocate_fst_ok {b : Backend} {a : Allocator} {t : Nat}
    {s : AllocState} {k : String} {v : ID} {n f : Bool}
    (h : (lockedAllocate b a t s k).1 = .ok (v, n, f)) :
    v ≠ 0 := by
  simp only [lockedAllocate] at h
  split at h
  · exact absurd h (by simp)
  · split at h
    · exact absurd h (by simp)
    · split at h
      · -- backend-authoritative read found nothing
        split at h
        · -- but the key is still known locally: master key re-created
          rename_i hlk
          split at h
          · exact absurd h (by simp)
          · exact fun hz => hlk ((afterMaster_fst_ok h).symm.trans hz)
        · -- truly new: new-allocation path
          exact newAllocPath_fst_ok h
      · -- backend-authoritative read found a nonzero ID
        rename_i hv0
        split at h
        · exact absurd h (by simp)
        · exact fun hz => hv0 ((afterMaster_fst_ok h).symm.trans hz)

/-- Every nil-error return of the `Allocate` retry loop carries a nonzero
ID, provided at least one attempt remains or a previous attempt already
recorded an error. -/
theorem allocateLoop_fst_ok {b : Backend} {a : Allocator} {k : String}
    {cc : Bool} :
    ∀ (fuel attempt : Nat) (s : AllocState) (lastErr : Option String)
      {v : ID} {n f : Bool},
      1 ≤ fuel ∨ lastErr ≠ none →
      (allocateLoop b a k cc fuel attempt s lastErr).1 = .ok v n f →
      v ≠ 0
  | 0, _, s, none, v, n, f, hcond, h => by
    rcases hcond with h1 | h1
    · omega
    · exact absurd rfl h1
  | 0, _, s, some e, v, n, f, _, h => by
    simp [allocateLoop] at h
  | fuel + 1, attempt, s, lastErr, v, n, f, _, h => by
    simp only [allocateLoop] at h
    split at h
    · rename_i hval
      simp only [Prod.mk.injEq, AllocOutcome.ok.injEq] at h
      obtain ⟨hv, -, -⟩ := h
      exact fun hz => hval (hv ▸ hz)
    · split at h
      · rename_i value isNew firstUse s2 ops2 heq
        simp only [AllocOutcome.ok.injEq] at h
        obtain ⟨hv, -, -⟩ := h
        have : (lockedAllocate b a attempt s k).1 = .ok (value, isNew, firstUse) := by
          rw [heq]
        exact fun hz => (lockedAllocate_fst_ok this) (hv ▸ hz)
      · split at h
        · exact absurd h (by simp)
        · simp only at h
          exact allocateLoop_fst_ok fuel (attempt + 1) _ _ (Or.inr (by simp)) h

/-- Every nil-error return of the `GetWithRetry` attempt step carries a
nonzero ID. -/
theorem getID_fst_ok {b : Backend} {s : AllocState} {k : String}
    {attempt : Nat} {id : ID}
    (h : (getID b s k attempt).1 = .ok id) : id ≠ 0 := by
  simp only [getID] at h
  split at h
  · rename_i hc
    simp only [Except.ok.injEq] at h
    exact fun hz => hc (h ▸ hz)
  · split at h
    · exact absurd h (by simp)
    · split at h
      · exact absurd h (by simp)
      · rename_i hnz
        simp only [Except.ok.injEq] at h
        exact fun hz => hnz (h ▸ hz)

/-- Every nil-error return of the `GetWithRetry` loop carries a nonzero
ID, provided at least one attempt remains or a previous attempt already
recorded an error. -/
theorem getWithRetryLoop_fst_ok {b : Backend} {s : AllocState} {k : String}
    {cc : Bool} :
    ∀ (fuel attempt : Nat) (lastErr : Option String) {id : ID},
      1 ≤ fuel ∨ lastErr ≠ none →
      (getWithRetryLoop b s k cc fuel attempt lastErr).1 = .ok id →
      id ≠ 0
  | 0, _, none, id, hcond, _ => by
    rcases hcond with h1 | h1
    · omega
    · exact absurd rfl h1
  | 0, _, some e, id, _, h => by
    simp [getWithRetryLoop] at h
  | fuel + 1, attempt, lastErr, id, _, h => by
    simp only [getWithRetryLoop] at h
    split at h
    · rename_i id' heq
      simp only [GetRetryOutcome.ok.injEq] at h
      exact fun hz => (getID_fst_ok heq) (h ▸ hz)
    · split at h
      · exact absurd h (by simp)
      · simp only at h
        exact getWithRetryLoop_fst_ok fuel (attempt + 1) _ (Or.inr (by simp)) h

/-- C1 (amended): whenever the allocator is configured with at least one
allocation attempt (`maxAllocAttempts ≥ 1`, as every production
configuration and the default 16 are), every `Allocate` return with a nil
error carries a nonzero ID — on the local fast path, on both
`lockedAllocate` success paths, and on the `operatorIDManagement`
`GetWithRetry` path. With `maxAllocAttempts = 0` the claim fails, see the
counterexample. -/
theorem C1_nonzero_id (b : Backend) (a : Allocator) (s : AllocState)
    (k : String) (initialListDone ctxCancelled pickCancel : Bool)
    (id : ID) (isNew firstUse : Bool) (s' : AllocState) (ops : List BackendOp)
    (hA : 1 ≤ a.maxAllocAttempts)
    (h : Allocate b a s k initialListDone ctxCancelled pickCancel =
      (.ok id isNew firstUse, s', ops)) :
    id ≠ 0 := by
  have hfst := congrArg (fun r => r.1) h
  simp only at hfst
  simp only [Allocate] at hfst
  split at hfst
  · exact absurd hfst (by simp)
  · exact absurd hfst (by simp)
  · split at hfst
    · -- operatorIDManagement
      split at hfst
      · rename_i id' ops' heq
        simp only [AllocOutcome.ok.injEq] at hfst
        obtain ⟨hv, -, -⟩ := hfst
        have : (GetWithRetry b a s k ctxCancelled).1 = .ok id' := by rw [heq]
        simp only [GetWithRetry] at this
        exact fun hz =>
          (getWithRetryLoop_fst_ok a.maxAllocAttempts 0 none (Or.inl hA) this)
            (hv ▸ hz)
      · exact absurd hfst (by simp)
      · exact absurd hfst (by simp)
    · exact allocateLoop_fst_ok a.maxAllocAttempts 0 s none (Or.inl hA) hfst

/-- C1 witness: a concrete allocation (fast path over the held key)
returns a nil error, and the theorem yields that its ID 5 is nonzero. -/
theorem C1_nonzero_id_witness : (5 : ID) ≠ 0 :=
  C1_nonzero_id okBackend defaultAllocator heldState "k" true false false
    5 false false
    { heldState with
        localKeys := [("k", { val := 5, refcnt := 2, verified := true })]
        mainCache := [("k", 5)] }
    [] (by decide) (by decide)

/-- With an exhausted pool, a clean local table and a backend holding no
mapping, one `lockedAllocate` attempt fails immediately with the
exhaustion error, leaves the state unchanged, and performs exactly the
lock and the locked read. -/
theorem lockedAllocate_exhausted {b : Backend} {a : Allocator} {t : Nat}
    {s : AllocState} {k : String}
    (hpool : s.idPool.available = [])
    (hcache : cacheGet s.mainCache k = NoID)
    (hlk : LocalKeys.find? s.localKeys k = none)
    (hlock : b.lockRes t k = .ok ())
    (hget : b.getIfLockedRes t k = .ok NoID) :
    lockedAllocate b a t s k =
      (.error "no more available IDs in configured space", s,
       [.lockOp k, .getIfLockedOp k]) := by
  simp [lockedAllocate, GetIfLocked, hlock, hcache, hget,
    LocalKeys.lookupKey, hlk, newAllocPath, selectAvailableID,
    IDPool.LeaseAvailableID, hpool]

/-- Under pool exhaustion the `Allocate` retry loop runs every remaining
attempt (one lock and one locked read each) and then fails with the
exhaustion error, the state unchanged. -/
theorem allocateLoop_exhausted {b : Backend} {a : Allocator} {k : String}
    {s : AllocState}
    (hpool : s.idPool.available = [])
    (hcache : cacheGet s.mainCache k = NoID)
    (hlk : LocalKeys.find? s.localKeys k = none)
    (hlock : ∀ t, b.lockRes t k = .ok ())
    (hget : ∀ t, b.getIfLockedRes t k = .ok NoID) :
    ∀ (fuel attempt : Nat) (lastErr : Option String),
      allocateLoop b a k false (fuel + 1) attempt s lastErr =
        (.failed "no more available IDs in configured space", s,
         (List.replicate (fuel + 1) [BackendOp.lockOp k, .getIfLockedOp k]).flatten)
  | 0, attempt, lastErr => by
    simp only [allocateLoop, LocalKeys.use, hlk]
    rw [lockedAllocate_exhausted hpool hcache hlk (hlock attempt) (hget attempt)]
    simp [allocateLoop]
  | fuel + 1, attempt, lastErr => by
    have ih := @allocateLoop_exhausted b a k s hpool hcache hlk hlock hget fuel
      (attempt + 1) (some "no more available IDs in configured space")
    conv in allocateLoop b a k false (fuel + 1 + 1) attempt s lastErr =>
      rw [allocateLoop]
    simp only [LocalKeys.use, hlk]
    rw [lockedAllocate_exhausted hpool hcache hlk (hlock attempt) (hget attempt)]
    simp [ih, List.replicate_succ]

/-- C4 (amended): when the ID pool has no available ID, each
`lockedAllocate` attempt fails immediately with the "no more available
IDs in configured space" error (the exhaustion is fatal to the attempt,
with no further work inside it), but the `Allocate` call itself retries
the attempt with backoff up to `maxAllocAttempts` times within the same
call — re-locking and re-reading each time — and only then surfaces that
same exhaustion error to the caller, with the state unchanged. -/
theorem C4_pool_exhaustion (b : Backend) (a : Allocator) (s : AllocState)
    (k : String) (pickCancel : Bool)
    (hop : a.operatorIDManagement = false)
    (hA : 1 ≤ a.maxAllocAttempts)
    (hpool : s.idPool.available = [])
    (hcache : cacheGet s.mainCache k = NoID)
    (hlk : LocalKeys.find? s.localKeys k = none)
    (hlock : ∀ t, b.lockRes t k = .ok ())
    (hget : ∀ t, b.getIfLockedRes t k = .ok NoID) :
    Allocate b a s k true false pickCancel =
      (.failed "no more available IDs in configured space", s,
       (List.replicate a.maxAllocAttempts [BackendOp.lockOp k, .getIfLockedOp k]).flatten) := by
  obtain ⟨m, hm⟩ : ∃ m, a.maxAllocAttempts = m + 1 :=
    ⟨a.maxAllocAttempts - 1, by omega⟩
  unfold Allocate selectInitOrDone
  rw [hop, hm]
  show allocateLoop b a k false (m + 1) 0 s none = _
  exact allocateLoop_exhausted hpool hcache hlk hlock hget m 0 none

/-- C4 witness: two configured attempts against an empty pool perform two
lock/read rounds and end in the exhaustion error. -/
theorem C4_pool_exhaustion_witness :
    Allocate okBackend { defaultAllocator with maxAllocAttempts := 2 }
        emptyState "k" true false false =
      (.failed "no more available IDs in configured space", emptyState,
       (List.replicate 2 [BackendOp.lockOp "k", .getIfLockedOp "k"]).flatten) :=
  C4_pool_exhaustion okBackend { defaultAllocator with maxAllocAttempts := 2 }
    emptyState "k" false rfl (by decide) rfl rfl rfl (fun _ => rfl) (fun _ => rfl)

/-- A `getID` step performs at most one backend operation, and it is a
`Get`. -/
theorem getID_ops {b : Backend} {s : AllocState} {k : String} {attempt : Nat} :
    (getID b s k attempt).2 = [] ∨ (getID b s k attempt).2 = [.getOp k] := by
  simp only [getID]
  split
  · exact Or.inl rfl
  · rcases hg : b.getRes attempt k with e | id <;> simp

/-- The whole `GetWithRetry` loop performs only backend `Get`
operations. -/
theorem getWithRetryLoop_ops {b : Backend} {s : AllocState} {k : String}
    {cc : Bool} :
    ∀ (fuel attempt : Nat) (lastErr : Option String),
      ∀ op ∈ (getWithRetryLoop b s k cc fuel attempt lastErr).2, op = .getOp k
  | 0, attempt, lastErr => by simp [getWithRetryLoop]
  | fuel + 1, attempt, lastErr => by
    intro op hop
    simp only [getWithRetryLoop] at hop
    have hstep : ∀ o, o ∈ (getID b s k attempt).2 → o = BackendOp.getOp k := by
      intro o ho
      rcases @getID_ops b s k attempt with h2 | h2 <;>
        rw [h2] at ho <;> simp_all
    rcases hg : (getID b s k attempt).1 with e | id <;> rw [hg] at hop
    · simp only at hop
      split at hop
      · exact hstep op hop
      · simp only [List.mem_append] at hop
        rcases hop with hop | hop
        · exact hstep op hop
        · exact getWithRetryLoop_ops fuel (attempt + 1) (some e) op hop
    · exact hstep op hop

/-- A `getID` step against a cold cache and an absent backend mapping
fails with the error naming the key. -/
theorem getID_notFound {b : Backend} {s : AllocState} {k : String}
    {attempt : Nat} (hmiss : cacheGet s.mainCache k = NoID)
    (hget : b.getRes attempt k = .ok NoID) :
    getID b s k attempt =
      (.error ("security identity not found for key " ++ k), [.getOp k]) := by
  simp [getID, hmiss, hget]

/-- When the external manager never creates the mapping, the
`GetWithRetry` loop polls `Get` once per remaining attempt and then fails
with the not-found error naming the key. -/
theorem getWithRetryLoop_notFound {b : Backend} {s : AllocState} {k : String}
    (hmiss : cacheGet s.mainCache k = NoID)
    (hget : ∀ t, b.getRes t k = .ok NoID) :
    ∀ (fuel attempt : Nat) (lastErr : Option String),
      getWithRetryLoop b s k false (fuel + 1) attempt lastErr =
        (.failed ("security identity not found for key " ++ k),
         List.replicate (fuel + 1) (.getOp k))
  | 0, attempt, lastErr => by
    simp only [getWithRetryLoop]
    rw [getID_notFound hmiss (hget attempt)]
    simp [getWithRetryLoop]
  | fuel + 1, attempt, lastErr => by
    have ih := getWithRetryLoop_notFound hmiss hget fuel (attempt + 1)
      (some ("security identity not found for key " ++ k))
    conv in getWithRetryLoop b s k false (fuel + 1 + 1) attempt lastErr =>
      rw [getWithRetryLoop]
    rw [getID_notFound hmiss (hget attempt)]
    simp [ih, List.replicate_succ]

/-- When the mapping exists in the backend, the `GetWithRetry` loop
returns it on its first attempt with a single `Get`. -/
theorem getWithRetryLoop_found {b : Backend} {s : AllocState} {k : String}
    {id : ID} {fuel attempt : Nat} {lastErr : Option String}
    (hmiss : cacheGet s.mainCache k = NoID)
    (hget : b.getRes attempt k = .ok id) (hnz : id ≠ NoID) :
    getWithRetryLoop b s k false (fuel + 1) attempt lastErr =
      (.ok id, [.getOp k]) := by
  have hstep : getID b s k attempt = (.ok id, [.getOp k]) := by
    simp [getID, hmiss, hget, hnz]
  simp [getWithRetryLoop, hstep]

/-- In operator mode `Allocate` is exactly `GetWithRetry` with
`isNew = firstUse = false` and no state change. -/
theorem Allocate_operator {b : Backend} {a : Allocator} {s : AllocState}
    {k : String} {pickCancel : Bool} (hop : a.operatorIDManagement = true) :
    Allocate b a s k true false pickCancel =
      (match GetWithRetry b a s k false with
       | (.ok id, ops) => (.ok id false false, s, ops)
       | (.cancelled m, ops) => (.cancelled m, s, ops)
       | (.failed m, ops) => (.failed m, s, ops)) := by
  unfold Allocate selectInitOrDone
  rw [hop]
  rfl

/-- C6: with `operatorIDManagement` enabled, `Allocate` never changes the
allocator-local state and performs only backend `Get` operations (no
create or reference operation, no local key table update); when the
mapping exists it returns it with `isNew = firstUse = false` and a nil
error, and when the external manager never creates it, the call polls
`Get` once per configured attempt (with backoff) and fails with the
not-found error naming the key. -/
theorem C6_operator_id_management (b : Backend) (a : Allocator)
    (s : AllocState) (k : String) (pickCancel : Bool)
    (hop : a.operatorIDManagement = true)
    (hA : 1 ≤ a.maxAllocAttempts) :
    (∀ out s' ops, Allocate b a s k true false pickCancel = (out, s', ops) →
      s' = s ∧ ∀ op ∈ ops, op = .getOp k) ∧
    (cacheGet s.mainCache k = NoID → (∀ t, b.getRes t k = .ok NoID) →
      Allocate b a s k true false pickCancel =
        (.failed ("security identity not found for key " ++ k), s,
         List.replicate a.maxAllocAttempts (BackendOp.getOp k))) ∧
    (∀ id, cacheGet s.mainCache k = NoID → b.getRes 0 k = .ok id → id ≠ NoID →
      Allocate b a s k true false pickCancel = (.ok id false false, s, [.getOp k])) := by
  obtain ⟨m, hm⟩ : ∃ m, a.maxAllocAttempts = m + 1 :=
    ⟨a.maxAllocAttempts - 1, by omega⟩
  refine ⟨?_, ?_, ?_⟩
  · intro out s' ops h
    rw [Allocate_operator hop] at h
    rcases hG : GetWithRetry b a s k false with ⟨r, opsG⟩
    have hops : ∀ op ∈ opsG, op = BackendOp.getOp k := by
      intro op hmem
      have : opsG = (getWithRetryLoop b s k false a.maxAllocAttempts 0 none).2 := by
        rw [show getWithRetryLoop b s k false a.maxAllocAttempts 0 none =
          GetWithRetry b a s k false from rfl, hG]
      rw [this] at hmem
      exact getWithRetryLoop_ops a.maxAllocAttempts 0 none op hmem
    rw [hG] at h
    cases r <;> simp only at h <;>
      (rw [Prod.mk.injEq, Prod.mk.injEq] at h; exact ⟨h.2.1.symm, h.2.2 ▸ hops⟩)
  · intro hmiss hget
    rw [Allocate_operator hop]
    have : GetWithRetry b a s k false =
        (.failed ("security identity not found for key " ++ k),
         List.replicate a.maxAllocAttempts (BackendOp.getOp k)) := by
      unfold GetWithRetry
      rw [hm]
      exact getWithRetryLoop_notFound hmiss hget m 0 none
    rw [this]
  · intro id hmiss hget hnz
    rw [Allocate_operator hop]
    have : GetWithRetry b a s k false = (.ok id, [.getOp k]) := by
      unfold GetWithRetry
      rw [hm]
      exact getWithRetryLoop_found hmiss hget hnz
    rw [this]

/-- C6 witness: the operator-managed allocator finds ID 7 with a single
backend `Get`, no state change, and `isNew = firstUse = false`. -/
theorem C6_operator_id_management_witness :
    Allocate foundBackend { defaultAllocator with operatorIDManagement := true }
        emptyState "k" true false false =
      (.ok 7 false false, emptyState, [.getOp "k"]) :=
  (C6_operator_id_management foundBackend
      { defaultAllocator with operatorIDManagement := true }
      emptyState "k" false rfl (by decide)).2.2 7 rfl rfl (by decide)

/-- Releasing the freshly reserved head entry restores the table. -/
theorem releaseQuiet_cons (lks : localKeysT) (k : String) (id : ID) :
    LocalKeys.releaseQuiet
        ((k, { val := id, refcnt := 1, verified := false }) :: lks) k = lks := by
  simp [LocalKeys.releaseQuiet, LocalKeys.release, LocalKeys.find?,
    LocalKeys.removeKey, LocalKeys.mapKey]

/-- C7: in the new-allocation path of `lockedAllocate` (no cached or
backend value, no local entry, a fresh ID leased from the pool), every
failure after leasing — the cluster-wide re-check finding a master key or
erroring, a failed conditional create, or a failed reference acquire —
fully unwinds: the local key reservation is released and the leased ID
returns to the pool, so the local state on error is exactly the input
state. -/
theorem C7_new_alloc_unwind (b : Backend) (a : Allocator) (t : Nat)
    (s : AllocState) (k : String) (x : ID) (rest : List ID)
    (hlock : b.lockRes t k = .ok ())
    (hcache : cacheGet s.mainCache k = NoID)
    (hgil : b.getIfLockedRes t k = .ok NoID)
    (hlk : LocalKeys.find? s.localKeys k = none)
    (hpool : s.idPool.available = x :: rest)
    (hx : x ≠ 0)
    (hleased : x ∉ s.idPool.leased) :
    ∀ e s' ops, lockedAllocate b a t s k = (.error e, s', ops) → s' = s := by
  have hsel : selectAvailableID a s.idPool =
      (x ||| a.prefixMask, x, ⟨rest, x :: s.idPool.leased⟩) := by
    simp [selectAvailableID, IDPool.LeaseAvailableID, hpool, NoID, hx]
  have halloc : LocalKeys.allocate s.localKeys k (x ||| a.prefixMask) =
      .ok (x ||| a.prefixMask, true,
        (k, { val := x ||| a.prefixMask, refcnt := 1, verified := false }) ::
          s.localKeys) := by
    simp [LocalKeys.allocate, hlk]
  have hpe : ({ available := x :: rest, leased := s.idPool.leased } : IDPool) =
      s.idPool := by
    rw [← hpool]
  intro e s' ops h
  have hs' : (lockedAllocate b a t s k).2.1 = s' := by rw [h]
  rw [← hs']
  rcases hg : b.getRes t k with eG | value
  · simp [lockedAllocate, GetIfLocked, newAllocPath, hlock, hcache, hgil,
      LocalKeys.lookupKey, hlk, hsel, halloc, releaseQuiet_cons,
      lor_ne_zero a.prefixMask hx, IDPool.Use, IDPool.Release,
      List.erase_cons_head, List.erase_of_not_mem hleased, hpe, hg]
  · by_cases hv : value = 0
    · subst hv
      rcases ha : b.allocateIDIfLockedRes t (x ||| a.prefixMask) k with eA | u
      · simp [lockedAllocate, GetIfLocked, newAllocPath, hlock, hcache, hgil,
          LocalKeys.lookupKey, hlk, hsel, halloc, releaseQuiet_cons,
          lor_ne_zero a.prefixMask hx, IDPool.Use, IDPool.Release,
          List.erase_cons_head, List.erase_of_not_mem hleased, hpe, hg, ha]
      · rcases hq : b.acquireReferenceRes t (x ||| a.prefixMask) k with eQ | u2
        · simp [lockedAllocate, GetIfLocked, newAllocPath, hlock, hcache, hgil,
            LocalKeys.lookupKey, hlk, hsel, halloc, releaseQuiet_cons,
            lor_ne_zero a.prefixMask hx, IDPool.Use, IDPool.Release,
            List.erase_cons_head, List.erase_of_not_mem hleased, hpe, hg, ha, hq]
        · -- all backend calls succeeded: `lockedAllocate` returns a nil
          -- error, contradicting the error hypothesis
          have hok : (lockedAllocate b a t s k).1 =
              .ok (x ||| a.prefixMask, true, true) := by
            simp [lockedAllocate, GetIfLocked, newAllocPath, hlock, hcache, hgil,
              LocalKeys.lookupKey, hlk, hsel, halloc,
              lor_ne_zero a.prefixMask hx, hg, ha, hq]
          rw [h] at hok
          exact absurd hok (by simp)
    · simp [lockedAllocate, GetIfLocked, newAllocPath, hlock, hcache, hgil,
        LocalKeys.lookupKey, hlk, hsel, halloc, releaseQuiet_cons,
        lor_ne_zero a.prefixMask hx, IDPool.Use, IDPool.Release,
        List.erase_cons_head, List.erase_of_not_mem hleased, hpe, hg, hv]

/-- C7 witness: with IDs 1..3 available and a failing
`AcquireReference`, the attempt errors and the state is exactly the input
state. -/
theorem C7_new_alloc_unwind_witness :
    lockedAllocate acqFailBackend defaultAllocator 0 poolState "k" =
      (.error "secondary key creation failed", poolState,
       [.lockOp "k", .getIfLockedOp "k", .getOp "k", .allocateIDOp 1 "k",
        .acquireReferenceOp 1 "k"]) ∧
      poolState = poolState :=
  ⟨rfl,
   C7_new_alloc_unwind acqFailBackend defaultAllocator 0 poolState "k" 1 [2, 3]
     rfl rfl rfl rfl rfl (by decide) (by decide)
     "secondary key creation failed" poolState
     [.lockOp "k", .getIfLockedOp "k", .getOp "k", .allocateIDOp 1 "k",
      .acquireReferenceOp 1 "k"] rfl⟩

end CiliumAllocator
